import Mathlib

/-!
Verification of the behavioural layer of a static landing page
(`script.js`).  Each browser component is shallowly embedded as a pure
Lean function over an explicit state record; event handlers become state
transformers, timers become iterated application, and DOM attribute /
inline-style mutation becomes record update.  Strings are kept verbatim
from the source so that each definition can be diffed against the
JavaScript it models.
-/

namespace Landing

/-! ### Testimonial rotator (`initTestimonialsSlider`, script.js 123-146)

Each `.testimonial-card` carries an inline `display` style and an
`aria-hidden` attribute (absent before the rotator first touches it).
-/

structure TCard where
  display : String
  ariaHidden : Option String
  deriving Repr, DecidableEq

structure SliderState where
  cards : List TCard
  currentTestimonial : Nat
  deriving Repr, DecidableEq

/-- The body of the `testimonials.forEach((testimonial, i) => ...)` loop in
`showTestimonial`: card `i` gets `display = i === index ? 'block' : 'none'`
and `aria-hidden = String(i !== index)`.  `i` is the index of the head of
the remaining list. -/
def updateCards (index : Nat) : Nat → List TCard → List TCard
  | _, [] => []
  | i, c :: cs =>
    { c with
      display := if i = index then "block" else "none",
      ariaHidden := some (if i = index then "false" else "true") }
      :: updateCards index (i + 1) cs

/-- `showTestimonial(index)`: hide-all-then-show-one pass over every card,
then `currentTestimonial = index`. -/
def showTestimonial (index : Nat) (st : SliderState) : SliderState :=
  { cards := updateCards index 0 st.cards, currentTestimonial := index }

/-- One 5000 ms `setInterval` tick:
`showTestimonial((currentTestimonial + 1) % testimonials.length)`. -/
def sliderTick (st : SliderState) : SliderState :=
  showTestimonial ((st.currentTestimonial + 1) % st.cards.length) st

/-- Result of `initTestimonialsSlider`: the state it leaves behind and
whether a `setInterval` timer was registered. -/
structure SliderInit where
  state : SliderState
  timerCreated : Bool
  deriving Repr, DecidableEq

/-- `initTestimonialsSlider`: if `testimonials.length <= 1` it returns at
once (no timer, no mutation); otherwise it registers the timer and runs
`showTestimonial(0)`. -/
def initTestimonialsSlider (cards : List TCard) : SliderInit :=
  if cards.length ≤ 1 then
    { state := { cards := cards, currentTestimonial := 0 }, timerCreated := false }
  else
    { state := showTestimonial 0 { cards := cards, currentTestimonial := 0 },
      timerCreated := true }

/-- State of the rotator after the initial `showTestimonial(0)` and `k`
timer ticks. -/
def sliderRun (cards : List TCard) (k : Nat) : SliderState :=
  sliderTick^[k] (initTestimonialsSlider cards).state

theorem length_updateCards (index : Nat) :
    ∀ (i : Nat) (cs : List TCard), (updateCards index i cs).length = cs.length := by
  intro i cs
  induction cs generalizing i with
  | nil => rfl
  | cons c cs ih => simp [updateCards, ih]

theorem get_updateCards (index : Nat) :
    ∀ (i : Nat) (cs : List TCard) (j : Nat) (hj : j < cs.length),
      (updateCards index i cs).get ⟨j, by rw [length_updateCards]; exact hj⟩ =
        { cs.get ⟨j, hj⟩ with
          display := if i + j = index then "block" else "none",
          ariaHidden := some (if i + j = index then "false" else "true") } := by
  intro i cs
  induction cs generalizing i with
  | nil => intro j hj; exact absurd hj (by simp)
  | cons c cs ih =>
    intro j hj
    cases j with
    | zero => simp [updateCards]
    | succ j =>
      have hj' : j < cs.length := Nat.lt_of_succ_lt_succ hj
      have hrec := ih (i + 1) j hj'
      simp only [List.get_eq_getElem] at hrec ⊢
      simp only [updateCards, List.getElem_cons_succ]
      rw [hrec]
      have harith : i + 1 + j = i + (j + 1) := by omega
      rw [harith]

theorem showTestimonial_cards_length (index : Nat) (st : SliderState) :
    (showTestimonial index st).cards.length = st.cards.length := by
  simp [showTestimonial, length_updateCards]

theorem showTestimonial_display (index : Nat) (st : SliderState) (j : Nat)
    (hj : j < st.cards.length) :
    ((showTestimonial index st).cards.get ⟨j, by
        rw [showTestimonial_cards_length]; exact hj⟩).display =
      if j = index then "block" else "none" := by
  have hrec := get_updateCards index 0 st.cards j hj
  simp only [List.get_eq_getElem] at hrec ⊢
  simp only [showTestimonial]
  rw [hrec]
  simp [Nat.zero_add]

theorem sliderRun_length (cards : List TCard) (k : Nat) :
    (sliderRun cards k).cards.length = cards.length := by
  induction k with
  | zero =>
    by_cases h : cards.length ≤ 1 <;>
      simp [sliderRun, initTestimonialsSlider, h, showTestimonial_cards_length]
  | succ k ih =>
    simpa [sliderRun, Function.iterate_succ_apply', sliderTick,
      showTestimonial_cards_length] using ih

/-- C1 core lemma: after `k` ticks the current index is `k % N`, the card
at that index shows `'block'` and every other card shows `'none'`. -/
theorem sliderRun_spec (cards : List TCard) (hN : 2 ≤ cards.length) (k : Nat) :
    (sliderRun cards k).currentTestimonial = k % cards.length ∧
    ∀ j, (hj : j < cards.length) →
      ((sliderRun cards k).cards.get ⟨j, by rw [sliderRun_length]; exact hj⟩).display =
        (if j = k % cards.length then "block" else "none") := by
  have hNpos : 0 < cards.length := by omega
  induction k with
  | zero =>
    have hinit : sliderRun cards 0 =
        showTestimonial 0 { cards := cards, currentTestimonial := 0 } := by
      simp [sliderRun, initTestimonialsSlider, Nat.not_le.mpr (show 1 < cards.length by omega)]
    refine ⟨?_, ?_⟩
    · rw [hinit]; simp [showTestimonial, Nat.zero_mod]
    · intro j hj
      have hdisp := showTestimonial_display 0 { cards := cards, currentTestimonial := 0 } j hj
      simp only [List.get_eq_getElem] at hdisp ⊢
      simp only [Nat.zero_mod]
      simp only [hinit]
      rw [hdisp]
  | succ k ih =>
    obtain ⟨ihcur, ihdisp⟩ := ih
    have ihlen := sliderRun_length cards k
    have hstep : sliderRun cards (k + 1) = sliderTick (sliderRun cards k) := by
      simp [sliderRun, Function.iterate_succ_apply']
    have hidx : ((sliderRun cards k).currentTestimonial + 1) % (sliderRun cards k).cards.length
        = (k + 1) % cards.length := by
      rw [ihcur, ihlen]
      conv_rhs => rw [Nat.add_mod]
      rw [Nat.mod_eq_of_lt (show 1 < cards.length by omega)]
    refine ⟨?_, ?_⟩
    · rw [hstep, sliderTick]
      simp only [showTestimonial]
      exact hidx
    · intro j hj
      have hjlen : j < (sliderRun cards k).cards.length := by rw [ihlen]; exact hj
      have hdisp := showTestimonial_display
        (((sliderRun cards k).currentTestimonial + 1) % (sliderRun cards k).cards.length)
        (sliderRun cards k) j hjlen
      simp only [List.get_eq_getElem] at hdisp ⊢
      simp only [hstep, sliderTick]
      rw [hdisp, hidx]

/-- A concrete three-card collection used to instantiate the rotator
theorems. -/
def demoCards : List TCard :=
  [{ display := "block", ariaHidden := none },
   { display := "none", ariaHidden := none },
   { display := "none", ariaHidden := none }]

/-- C1: with `N ≥ 2` testimonial cards, every run of `showTestimonial`
(the initial call with index 0 and every timer tick) leaves exactly one
card with display `'block'` — the one at index `k % N` after `k` ticks —
and all others with display `'none'`, and each tick advances the visible
index by exactly 1 modulo `N`. -/
theorem rotator_one_visible (cards : List TCard) (hN : 2 ≤ cards.length) (k : Nat) :
    (sliderRun cards k).currentTestimonial = k % cards.length ∧
    (sliderRun cards (k + 1)).currentTestimonial =
      ((sliderRun cards k).currentTestimonial + 1) % cards.length ∧
    ∀ j, (hj : j < cards.length) →
      (((sliderRun cards k).cards.get ⟨j, by rw [sliderRun_length]; exact hj⟩).display = "block"
          ↔ j = k % cards.length) ∧
      (j ≠ k % cards.length →
        ((sliderRun cards k).cards.get ⟨j, by
            rw [sliderRun_length]; exact hj⟩).display = "none") := by
  obtain ⟨hcur, hdisp⟩ := sliderRun_spec cards hN k
  obtain ⟨hcur', _⟩ := sliderRun_spec cards hN (k + 1)
  refine ⟨hcur, ?_, ?_⟩
  · rw [hcur', hcur]
    conv_lhs => rw [Nat.add_mod]
    rw [Nat.mod_eq_of_lt (show 1 < cards.length by omega)]
  · intro j hj
    have hd := hdisp j hj
    constructor
    · rw [hd]
      constructor
      · intro hblock
        by_contra hne
        rw [if_neg hne] at hblock
        exact absurd hblock (by decide)
      · intro he; rw [if_pos he]
    · intro hne; rw [hd, if_neg hne]

/-- Witness for C1 at the concrete three-card collection, after 4 ticks. -/
theorem rotator_one_visible_witness :
    (sliderRun demoCards 4).currentTestimonial = 4 % demoCards.length ∧
    (((sliderRun demoCards 4).cards.get ⟨1, by rw [sliderRun_length]; decide⟩).display = "block"
        ↔ 1 = 4 % demoCards.length) :=
  ⟨(rotator_one_visible demoCards (by decide) 4).1,
   ((rotator_one_visible demoCards (by decide) 4).2.2 1 (by decide)).1⟩

/-- C4: with at most one testimonial card, `initTestimonialsSlider`
registers no timer and leaves every card untouched (`state.cards = cards`
is the no-DOM-mutation statement: in particular a single visible card
keeps its `display` value, so it stays visible). -/
theorem rotator_noop_single (cards : List TCard) (h : cards.length ≤ 1) :
    (initTestimonialsSlider cards).timerCreated = false ∧
    (initTestimonialsSlider cards).state.cards = cards := by
  simp [initTestimonialsSlider, h]

/-- Witness for C4 at a single visible card. -/
theorem rotator_noop_single_witness :
    (initTestimonialsSlider [{ display := "block", ariaHidden := none }]).timerCreated = false ∧
    (initTestimonialsSlider [{ display := "block", ariaHidden := none }]).state.cards =
      [{ display := "block", ariaHidden := none }] :=
  rotator_noop_single [{ display := "block", ariaHidden := none }] (by decide)

/-! ### Sticky header (`initStickyHeader`, script.js 15-27)

The scroll handler reads `window.scrollY` and overwrites the header's
inline `padding` and `box-shadow`. -/

structure HeaderStyle where
  padding : String
  boxShadow : String
  deriving Repr, DecidableEq

/-- The scroll listener registered by `initStickyHeader`.  `scrollY` is
the vertical scroll offset at the time the event fires. -/
def stickyHeaderOnScroll (scrollY : Nat) (h : HeaderStyle) : HeaderStyle :=
  if scrollY > 100 then
    { h with padding := "10px 0", boxShadow := "0 5px 20px rgba(0, 0, 0, 0.1)" }
  else
    { h with padding := "20px 0", boxShadow := "0 2px 10px rgba(0, 0, 0, 0.1)" }

/-- C7: offsets above 100 px give the compact padding, offsets at or below
100 px give the default padding, and re-running the handler at the same
offset is idempotent. -/
theorem stickyHeader_spec (scrollY : Nat) (h : HeaderStyle) :
    (scrollY > 100 → (stickyHeaderOnScroll scrollY h).padding = "10px 0") ∧
    (scrollY ≤ 100 → (stickyHeaderOnScroll scrollY h).padding = "20px 0") ∧
    stickyHeaderOnScroll scrollY (stickyHeaderOnScroll scrollY h) =
      stickyHeaderOnScroll scrollY h := by
  by_cases hc : scrollY > 100
  · refine ⟨fun _ => ?_, fun hle => absurd hc (by omega), ?_⟩ <;>
      simp [stickyHeaderOnScroll, hc]
  · refine ⟨fun hgt => absurd hgt hc, fun _ => ?_, ?_⟩ <;>
      simp [stickyHeaderOnScroll, hc]

/-- Witness for C7 at offset 150 on a blank header style. -/
theorem stickyHeader_spec_witness :
    (stickyHeaderOnScroll 150 { padding := "", boxShadow := "" }).padding = "10px 0" :=
  (stickyHeader_spec 150 { padding := "", boxShadow := "" }).1 (by decide)

/-! ### Mobile menu (`initMobileMenu`, script.js 34-69)

State: the nav panel's inline `display`, the toggle's `aria-expanded`
attribute (absent until first written), and whether the toggle currently
holds keyboard focus.  The click handler reads `isExpanded` but never
uses it; branching is on `navLinks.style.display === 'flex'`. -/

structure MenuState where
  navDisplay : String
  ariaExpanded : Option String
  toggleFocused : Bool
  deriving Repr, DecidableEq

/-- The toggle's click handler. -/
def menuToggleClick (m : MenuState) : MenuState :=
  if m.navDisplay = "flex" then
    { m with navDisplay := "none", ariaExpanded := some "false" }
  else
    { m with navDisplay := "flex", ariaExpanded := some "true" }

/-- The document-level click handler; `outsideBoth` is the value of
`!navLinks.contains(event.target) && !mobileMenu.contains(event.target)`
for the click that fired it. -/
def menuDocumentClick (outsideBoth : Bool) (m : MenuState) : MenuState :=
  if outsideBoth then
    { m with navDisplay := "none", ariaExpanded := some "false" }
  else m

/-- The document-level keydown handler; closes the open menu on
`Escape` and focuses the toggle. -/
def menuKeydown (key : String) (m : MenuState) : MenuState :=
  if key = "Escape" ∧ m.navDisplay = "flex" then
    { m with navDisplay := "none", ariaExpanded := some "false", toggleFocused := true }
  else m

/-- C5: two toggle clicks from the closed state (display `'none'`,
`aria-expanded 'false'`) land back in the closed state. -/
theorem menuToggle_double_click (m : MenuState)
    (hd : m.navDisplay = "none") :
    (menuToggleClick (menuToggleClick m)).navDisplay = "none" ∧
    (menuToggleClick (menuToggleClick m)).ariaExpanded = some "false" := by
  simp [menuToggleClick, hd]

/-- Witness for C5 at the fully closed concrete state. -/
theorem menuToggle_double_click_witness :
    (menuToggleClick (menuToggleClick
        { navDisplay := "none", ariaExpanded := some "false", toggleFocused := false })).navDisplay
      = "none" ∧
    (menuToggleClick (menuToggleClick
        { navDisplay := "none", ariaExpanded := some "false", toggleFocused := false })).ariaExpanded
      = some "false" :=
  menuToggle_double_click
    { navDisplay := "none", ariaExpanded := some "false", toggleFocused := false } (by decide)

/-- The ARIA/visual agreement predicate: `aria-expanded` is `'true'`
exactly when the panel's display is `'flex'`. -/
def menuConsistent (m : MenuState) : Prop :=
  m.ariaExpanded = some "true" ↔ m.navDisplay = "flex"

/-- C9: each mobile-menu handler establishes or preserves the agreement
between `aria-expanded` and the panel's display: a toggle click always
establishes it, an outside click always establishes it, Escape with the
menu open establishes it, and the two conditional handlers preserve it
when they fire without their condition. -/
theorem menu_aria_consistency (m : MenuState) (b : Bool) (k : String) :
    menuConsistent (menuToggleClick m) ∧
    menuConsistent (menuDocumentClick true m) ∧
    (m.navDisplay = "flex" → menuConsistent (menuKeydown "Escape" m)) ∧
    (menuConsistent m → menuConsistent (menuDocumentClick b m)) ∧
    (menuConsistent m → menuConsistent (menuKeydown k m)) := by
  refine ⟨?_, ?_, ?_, ?_, ?_⟩
  · by_cases hd : m.navDisplay = "flex" <;>
      simp [menuToggleClick, menuConsistent, hd]
  · simp [menuDocumentClick, menuConsistent]
  · intro hd
    simp [menuKeydown, menuConsistent, hd]
  · intro hm
    cases b
    · simpa [menuDocumentClick, menuConsistent] using hm
    · simp [menuDocumentClick, menuConsistent]
  · intro hm
    by_cases hc : k = "Escape" ∧ m.navDisplay = "flex"
    · simp [menuKeydown, menuConsistent, hc]
    · simpa [menuKeydown, menuConsistent, hc] using hm

/-- Witness for C9 at a concrete open state and the Escape key. -/
theorem menu_aria_consistency_witness :
    menuConsistent (menuToggleClick
      { navDisplay := "flex", ariaExpanded := some "true", toggleFocused := false }) ∧
    menuConsistent (menuKeydown "Escape"
      { navDisplay := "flex", ariaExpanded := some "true", toggleFocused := false }) :=
  ⟨(menu_aria_consistency
      { navDisplay := "flex", ariaExpanded := some "true", toggleFocused := false }
      true "Escape").1,
   (menu_aria_consistency
      { navDisplay := "flex", ariaExpanded := some "true", toggleFocused := false }
      true "Escape").2.2.1 (by decide)⟩

/-! ### Smooth scrolling (`initSmoothScrolling`, script.js 76-116)

The per-anchor click handler.  A `Page` is the document state the
handler can observe or mutate: the header (absent when
`document.querySelector('header')` is null, otherwise its current
rendered `offsetHeight`), the addressable elements (keyed by the href
selector string, carrying their document-relative `offsetTop`), the last
`window.scrollTo` request, the history stack of pushed fragments, the
viewport width, the mobile-menu elements, and the focused element. -/

structure PageElem where
  offsetTop : Int
  deriving Repr, DecidableEq

structure Page where
  headerHeight : Option Int
  elements : List (String × PageElem)
  scrolledTo : Option Int
  history : List String
  innerWidth : Int
  navLinksPresent : Bool
  mobileMenuPresent : Bool
  navDisplay : String
  ariaExpanded : Option String
  focused : Option String
  deriving Repr, DecidableEq

/-- `document.querySelector(targetId)` over the modelled elements. -/
def lookupElem (pg : Page) (sel : String) : Option PageElem :=
  (pg.elements.find? (fun p => p.1 = sel)).map (fun p => p.2)

/-- Outcome of one run of the click handler: either it returns normally
with the updated document, or it throws, leaving the document in the
state it had when the exception escaped. -/
inductive HandlerOutcome where
  | ok (pg : Page)
  | threw (pg : Page)
  deriving Repr, DecidableEq

/-- The anchor click handler (script.js 78-114).  `preventDefault` always
runs; `'#'` returns early; a missing target returns early; otherwise the
header height is read unconditionally (`document.querySelector('header')
.offsetHeight` — a TypeError if the header is absent, before any effect),
then scroll, `history.pushState`, conditional menu close, and focus
transfer happen in that order. -/
def anchorClick (pg : Page) (href : String) : HandlerOutcome :=
  if href = "#" then .ok pg
  else
    match lookupElem pg href with
    | none => .ok pg
    | some el =>
      match pg.headerHeight with
      | none => .threw pg
      | some hh =>
        let targetPosition := el.offsetTop - hh
        let pg1 := { pg with scrolledTo := some targetPosition }
        let pg2 := { pg1 with history := href :: pg1.history }
        let pg3 :=
          if pg2.innerWidth ≤ (768 : Int) then
            if pg2.navLinksPresent && pg2.mobileMenuPresent then
              { pg2 with navDisplay := "none", ariaExpanded := some "false" }
            else pg2
          else pg2
        .ok { pg3 with focused := some href }

/-- C3: clicking an anchor whose href resolves to an element requests a
scroll to the target's `offsetTop` minus the header height read from the
page state at that click (the quantification over `pg` is the
per-click, uncached measurement), and pushes the href onto the history
stack. -/
theorem anchorClick_scroll_spec (pg : Page) (href : String) (el : PageElem) (hh : Int)
    (hhref : href ≠ "#") (hel : lookupElem pg href = some el)
    (hhdr : pg.headerHeight = some hh) :
    ∃ pg1, anchorClick pg href = .ok pg1 ∧
      pg1.scrolledTo = some (el.offsetTop - hh) ∧
      pg1.history = href :: pg.history := by
  simp only [anchorClick, if_neg hhref, hel, hhdr]
  refine ⟨_, rfl, ?_, ?_⟩ <;> (split <;> first | rfl | (split <;> rfl))

/-- A concrete page with a header of height 64 and one section target,
used to instantiate the smooth-scroll theorems. -/
def demoPage : Page :=
  { headerHeight := some 64,
    elements := [("#features", { offsetTop := 900 })],
    scrolledTo := none,
    history := [],
    innerWidth := 1200,
    navLinksPresent := true,
    mobileMenuPresent := true,
    navDisplay := "none",
    ariaExpanded := some "false",
    focused := none }

/-- Witness for C3 on the concrete page. -/
theorem anchorClick_scroll_spec_witness :
    ∃ pg1, anchorClick demoPage "#features" = .ok pg1 ∧
      pg1.scrolledTo = some ((900 : Int) - 64) ∧
      pg1.history = "#features" :: demoPage.history :=
  anchorClick_scroll_spec demoPage "#features" { offsetTop := 900 } 64
    (by decide) (by rfl) (by rfl)

/-- C6: clicking an anchor whose href matches no element leaves the page
exactly as it was — no scroll request, no history push, no focus change —
and returns normally (no throw). -/
theorem anchorClick_missing_target (pg : Page) (href : String)
    (hel : lookupElem pg href = none) :
    anchorClick pg href = .ok pg := by
  by_cases h : href = "#" <;> simp [anchorClick, h, hel]

/-- Witness for C6: a href that names no element on the concrete page. -/
theorem anchorClick_missing_target_witness :
    anchorClick demoPage "#nonexistent" = .ok demoPage :=
  anchorClick_missing_target demoPage "#nonexistent" (by rfl)

/-- C10: when the clicked anchor's target exists, the handler reads the
header height before any effect: with a header present it returns
normally, and with no header it throws with the page still in its
pre-click state (no scroll, history, menu, or focus mutation). -/
theorem anchorClick_header_read (pg : Page) (href : String) (el : PageElem)
    (hhref : href ≠ "#") (hel : lookupElem pg href = some el) :
    (∀ hh, pg.headerHeight = some hh → ∃ pg1, anchorClick pg href = .ok pg1) ∧
    (pg.headerHeight = none → anchorClick pg href = .threw pg) := by
  constructor
  · intro hh hhdr
    simp only [anchorClick, if_neg hhref, hel, hhdr]
    exact ⟨_, rfl⟩
  · intro hnone
    simp [anchorClick, if_neg hhref, hel, hnone]

/-- Witness for C10: the concrete page with its header removed throws;
with the header present it returns normally. -/
theorem anchorClick_header_read_witness :
    (∃ pg1, anchorClick demoPage "#features" = .ok pg1) ∧
    anchorClick { demoPage with headerHeight := none } "#features" =
      .threw { demoPage with headerHeight := none } :=
  ⟨(anchorClick_header_read demoPage "#features" { offsetTop := 900 }
      (by decide) (by rfl)).1 64 (by rfl),
   (anchorClick_header_read { demoPage with headerHeight := none } "#features"
      { offsetTop := 900 } (by decide) (by rfl)).2 (by rfl)⟩

/-! ### Form validation (`initFormValidation`, script.js 221-250)

`window.validateForm(form)` iterates over
`form.querySelectorAll('input[required], textarea[required]')`.  A
`Field` models one input/textarea of the form: its current value,
whether it carries the `required` attribute, whether its class list
contains `'error'`, and whether its next element sibling is an inserted
`'error-message'` span.  The handler's two branches make
`nextIsErrorMsg` true (insert only when absent — never a duplicate) or
false (remove only when present). -/

structure Field where
  value : String
  required : Bool
  hasErrorClass : Bool
  nextIsErrorMsg : Bool
  deriving Repr, DecidableEq

/-- Strip leading and trailing whitespace from a character list. -/
def trimChars (cs : List Char) : List Char :=
  ((cs.dropWhile Char.isWhitespace).reverse.dropWhile Char.isWhitespace).reverse

/-- JavaScript `String.prototype.trim()`: the value with whitespace
stripped from both ends. -/
def jsTrim (s : String) : String := ⟨trimChars s.data⟩

/-- `!input.value.trim()`: the trimmed value is the empty string (the
only falsy string). -/
def fieldEmpty (f : Field) : Bool := (jsTrim f.value).isEmpty

/-- `validateForm`: walks the form's fields; only required ones are in
the `querySelectorAll` result, so non-required fields pass through
untouched.  Returns the mutated fields and the accumulated `isValid`. -/
def validateForm : List Field → List Field × Bool
  | [] => ([], true)
  | f :: fs =>
    let r := validateForm fs
    if f.required then
      if fieldEmpty f then
        ({ f with hasErrorClass := true, nextIsErrorMsg := true } :: r.1, false)
      else
        ({ f with hasErrorClass := false, nextIsErrorMsg := false } :: r.1, r.2)
    else
      (f :: r.1, r.2)

/-- C2: `validateForm` returns true iff every required field has a
non-empty trimmed value; every empty required field comes out marked
with the error class and an error-message sibling; every filled required
field comes out with neither; and on a form whose required fields are
all filled it returns true and removes every previously inserted
error message. -/
theorem validateForm_spec (fields : List Field) :
    ((validateForm fields).2 = true ↔ ∀ f ∈ fields, f.required = true → fieldEmpty f = false) ∧
    (∀ f ∈ (validateForm fields).1, f.required = true → fieldEmpty f = true →
      f.hasErrorClass = true ∧ f.nextIsErrorMsg = true) ∧
    (∀ f ∈ (validateForm fields).1, f.required = true → fieldEmpty f = false →
      f.hasErrorClass = false ∧ f.nextIsErrorMsg = false) ∧
    ((∀ f ∈ fields, f.required = true → fieldEmpty f = false) →
      (validateForm fields).2 = true ∧
      ∀ f ∈ (validateForm fields).1, f.required = true → f.nextIsErrorMsg = false) := by
  induction fields with
  | nil =>
    refine ⟨by simp [validateForm], by simp [validateForm], by simp [validateForm], ?_⟩
    intro _
    simp [validateForm]
  | cons f fs ih =>
    obtain ⟨ihvalid, ihempty, ihfilled, ihrerun⟩ := ih
    by_cases hreq : f.required = true
    · by_cases hemp : fieldEmpty f = true
      · refine ⟨?_, ?_, ?_, ?_⟩
        · simp only [validateForm, hreq, if_true, hemp]
          simp only [Bool.false_eq_true, false_iff]
          intro hall
          exact absurd (hall f (by simp) hreq) (by simp [hemp])
        · intro g hg hgreq hgemp
          simp only [validateForm, hreq, if_true, hemp] at hg
          simp only [List.mem_cons] at hg
          rcases hg with hg | hg
          · subst hg; exact ⟨rfl, rfl⟩
          · exact ihempty g hg hgreq hgemp
        · intro g hg hgreq hgfill
          simp only [validateForm, hreq, if_true, hemp] at hg
          simp only [List.mem_cons] at hg
          rcases hg with hg | hg
          · subst hg
            have hval : fieldEmpty f = false := hgfill
            rw [hval] at hemp
            exact absurd hemp (by decide)
          · exact ihfilled g hg hgreq hgfill
        · intro hall
          exact absurd (hall f (by simp) hreq) (by simp [hemp])
      · have hemp' : fieldEmpty f = false := by
          cases hfe : fieldEmpty f
          · rfl
          · exact absurd hfe hemp
        refine ⟨?_, ?_, ?_, ?_⟩
        · simp only [validateForm, hreq, if_true, hemp']
          simp only [Bool.false_eq_true, if_false]
          rw [ihvalid]
          constructor
          · intro hall g hg hgreq
            simp only [List.mem_cons] at hg
            rcases hg with hg | hg
            · subst hg; exact hemp'
            · exact hall g hg hgreq
          · intro hall g hg hgreq
            exact hall g (by simp [hg]) hgreq
        · intro g hg hgreq hgemp
          simp only [validateForm, hreq, if_true, hemp'] at hg
          simp only [Bool.false_eq_true, if_false, List.mem_cons] at hg
          rcases hg with hg | hg
          · subst hg
            have hval : fieldEmpty f = true := hgemp
            rw [hval] at hemp'
            exact absurd hemp' (by decide)
          · exact ihempty g hg hgreq hgemp
        · intro g hg hgreq hgfill
          simp only [validateForm, hreq, if_true, hemp'] at hg
          simp only [Bool.false_eq_true, if_false, List.mem_cons] at hg
          rcases hg with hg | hg
          · subst hg; exact ⟨rfl, rfl⟩
          · exact ihfilled g hg hgreq hgfill
        · intro hall
          have htail : ∀ g ∈ fs, g.required = true → fieldEmpty g = false := by
            intro g hg hgreq
            exact hall g (by simp [hg]) hgreq
          obtain ⟨hv, hmsg⟩ := ihrerun htail
          constructor
          · simp only [validateForm, hreq, if_true, hemp']
            simpa using hv
          · intro g hg hgreq
            simp only [validateForm, hreq, if_true, hemp'] at hg
            simp only [Bool.false_eq_true, if_false, List.mem_cons] at hg
            rcases hg with hg | hg
            · subst hg; rfl
            · exact hmsg g hg hgreq
    · have hreq' : f.required = false := by
        cases hfr : f.required
        · rfl
        · exact absurd hfr hreq
      refine ⟨?_, ?_, ?_, ?_⟩
      · simp only [validateForm, hreq', Bool.false_eq_true, if_false]
        rw [ihvalid]
        constructor
        · intro hall g hg hgreq
          simp only [List.mem_cons] at hg
          rcases hg with hg | hg
          · subst hg; exact absurd hgreq (by simp [hreq'])
          · exact hall g hg hgreq
        · intro hall g hg hgreq
          exact hall g (by simp [hg]) hgreq
      · intro g hg hgreq hgemp
        simp only [validateForm, hreq', Bool.false_eq_true, if_false, List.mem_cons] at hg
        rcases hg with hg | hg
        · subst hg; exact absurd hgreq (by simp [hreq'])
        · exact ihempty g hg hgreq hgemp
      · intro g hg hgreq hgfill
        simp only [validateForm, hreq', Bool.false_eq_true, if_false, List.mem_cons] at hg
        rcases hg with hg | hg
        · subst hg; exact absurd hgreq (by simp [hreq'])
        · exact ihfilled g hg hgreq hgfill
      · intro hall
        have htail : ∀ g ∈ fs, g.required = true → fieldEmpty g = false := by
          intro g hg hgreq
          exact hall g (by simp [hg]) hgreq
        obtain ⟨hv, hmsg⟩ := ihrerun htail
        constructor
        · simp only [validateForm, hreq', Bool.false_eq_true, if_false]
          exact hv
        · intro g hg hgreq
          simp only [validateForm, hreq', Bool.false_eq_true, if_false, List.mem_cons] at hg
          rcases hg with hg | hg
          · subst hg; exact absurd hgreq (by simp [hreq'])
          · exact hmsg g hg hgreq

/-- A concrete two-field form: one empty required field, one filled
required field. -/
def demoForm : List Field :=
  [{ value := "   ", required := true, hasErrorClass := false, nextIsErrorMsg := false },
   { value := "alice", required := true, hasErrorClass := false, nextIsErrorMsg := false }]

/-- The same form after the visitor fills the empty field; the first
field still carries the error message inserted by the failed run. -/
def demoFormFilled : List Field :=
  [{ value := "bob", required := true, hasErrorClass := true, nextIsErrorMsg := true },
   { value := "alice", required := true, hasErrorClass := false, nextIsErrorMsg := false }]

/-- Witness for C2: the mixed form is invalid and, once every required
field is filled, validation succeeds and drops the error message. -/
theorem validateForm_spec_witness :
    ¬ ((validateForm demoForm).2 = true) ∧
    ((validateForm demoFormFilled).2 = true ∧
      ∀ f ∈ (validateForm demoFormFilled).1, f.required = true → f.nextIsErrorMsg = false) :=
  ⟨fun hv => by
      have hall := (validateForm_spec demoForm).1.mp hv
      have hcontra := hall
        { value := "   ", required := true, hasErrorClass := false, nextIsErrorMsg := false }
        (by simp [demoForm]) rfl
      exact absurd hcontra (by decide),
   (validateForm_spec demoFormFilled).2.2.2 (by
      intro f hf hfr
      simp only [demoFormFilled, List.mem_cons, List.not_mem_nil, or_false] at hf
      rcases hf with hf | hf
      · subst hf; decide
      · subst hf; decide)⟩

/-! ### Scroll animations (`initScrollAnimations`, script.js 257-284)

`animateOnScroll` runs per element on each scroll event: if the
element's bounding-rect top is within 150 px of the bottom of the
viewport it sets `opacity` to `"1"` and `transform` to
`"translateY(0)"`; otherwise it leaves the element alone. -/

structure AnimElem where
  top : Int
  opacity : String
  transform : String
  deriving Repr, DecidableEq

/-- The per-element body of `animateOnScroll`; `innerHeight` is
`window.innerHeight` at the event, `e.top` the element's current
`getBoundingClientRect().top`. -/
def animateElem (innerHeight : Int) (e : AnimElem) : AnimElem :=
  if e.top < innerHeight - 150 then
    { e with opacity := "1", transform := "translateY(0)" }
  else e

/-- An element in the revealed state: opacity 1 and zero offset. -/
def animRevealed (e : AnimElem) : Prop :=
  e.opacity = "1" ∧ e.transform = "translateY(0)"

/-- A sequence of scroll events applied to one element.  Each event
carries the viewport height and the element's new bounding-rect top at
that instant (scrolling moves the rect, never the opacity/transform). -/
def runAnimEvents (e : AnimElem) : List (Int × Int) → AnimElem
  | [] => e
  | (ih, t) :: evs => runAnimEvents (animateElem ih { e with top := t }) evs

/-- C8: the reveal is one-way — a revealed element stays revealed under
every further sequence of scroll events, whatever the scroll direction
moves its bounding rect to. -/
theorem animate_one_way (e : AnimElem) (evs : List (Int × Int))
    (h : animRevealed e) : animRevealed (runAnimEvents e evs) := by
  induction evs generalizing e with
  | nil => exact h
  | cons ev evs ihyp =>
    obtain ⟨hop, htr⟩ := h
    obtain ⟨ih, t⟩ := ev
    apply ihyp
    by_cases hc : t < ih - 150
    · simp [animateElem, hc, animRevealed]
    · simp only [animateElem]
      rw [if_neg (by simpa using hc)]
      exact ⟨hop, htr⟩

/-- Witness for C8: a revealed element scrolled back above the viewport
threshold stays revealed. -/
theorem animate_one_way_witness :
    animRevealed (runAnimEvents
      { top := 100, opacity := "1", transform := "translateY(0)" }
      [(800, 2000), (800, 100)]) :=
  animate_one_way { top := 100, opacity := "1", transform := "translateY(0)" }
    [(800, 2000), (800, 100)] ⟨rfl, rfl⟩

end Landing
